import Mathlib

/-!
# Service reconciliation and CRD schema clean-up of argo-rollouts

A shallow embedding of

* `service/service.go`: `syncService`, `generateRemovePatch`,
  `getRolloutsByService` and the two patch constants;
* `hack/gen-crd-spec/main.go`: `removeDescriptions` and `removeFieldHelper`.

The collaborators of the service controller (service lister, rollout indexer,
rollout work queue, the two API clients) are interfaces in the Go source.  They
are embedded as the fields of `ServiceController`: a call is a function
application, and every call that `syncService` makes is recorded, in program
order, in a list of `Call`s which `syncService` returns next to its `error`
result.  Logging is not part of the embedding.
-/

namespace ArgoRollouts

set_option maxRecDepth 8000

/-! ## Go values -/

/-- A Go `map[string]string`: `none` is the nil map, `some l` a map with the
entries of `l` (the first entry of a key is the one that counts). -/
abbrev StringMap := Option (List (String × String))

/-- The Go expression `v, ok := m[k]`: indexing a nil map yields `ok = false`. -/
def StringMap.get (m : StringMap) (k : String) : Option String :=
  match m with
  | none => none
  | some l => l.lookup k

/-- A Go `error` value that is not nil: an error that carries an API status
(its reason and its message), the error
`fmt.Errorf("unexpected key format: %q", key)` of `cache.SplitMetaNamespaceKey`,
held by the key it was made from, or any other error. -/
inductive Err where
  | status (reason message : String)
  | unexpectedKeyFormat (key : String)
  | other (message : String)
  deriving DecidableEq, Repr

/-- The Go `errors.IsNotFound(err)` of k8s.io/apimachinery on a non-nil error:
the reason of the status of the error is `StatusReasonNotFound`. -/
def IsNotFound (err : Err) : Bool :=
  match err with
  | Err.status reason _ => reason == "NotFound"
  | _ => false

deriving instance DecidableEq for Except

/-- The constants of package `v1alpha1` that `service.go` uses.  Their
declarations are outside the embedded files, so they are parameters. -/
structure V1alpha1 where
  DefaultRolloutUniqueLabelKey : String
  ManagedByRolloutsKey : String
  deriving DecidableEq, Repr

/-- The part of `corev1.Service` that `service.go` reads. -/
structure Service where
  Namespace : String
  Name : String
  Selector : StringMap
  Annotations : StringMap
  deriving DecidableEq, Repr

/-- The part of `v1alpha1.Rollout` that identifies it. -/
structure Rollout where
  Namespace : String
  Name : String
  deriving DecidableEq, Repr

/-- An `interface{}` held by the rollout indexer: a `*v1alpha1.Rollout` or a
value of some other dynamic type. -/
inductive Obj where
  | rollout (r : Rollout)
  | other (typeName : String)
  deriving DecidableEq, Repr

/-- The patch types of `k8s.io/apimachinery/pkg/types`. -/
inductive PatchType where
  | JSONPatchType
  | MergePatchType
  | StrategicMergePatchType
  deriving DecidableEq, Repr

/-- One call made by `syncService` on a collaborator. -/
inductive Call where
  | servicesGet (ns name : String)
  | byIndex (indexName indexedValue : String)
  | enqueueRollout (r : Rollout)
  | rolloutsGet (ns name : String)
  | servicesPatch (ns name : String) (pt : PatchType) (data : String)
  deriving DecidableEq, Repr

/-- The collaborators held by the Go `ServiceController`, each with the answer
it gives to a call. -/
structure ServiceController where
  /-- The package constants. -/
  v1alpha1 : V1alpha1
  /-- The Go `cache.SplitMetaNamespaceKey(key)`. -/
  SplitMetaNamespaceKey : String → Except Err (String × String)
  /-- The Go `c.servicesLister.Services(namespace).Get(name)`. -/
  servicesGet : String → String → Except Err Service
  /-- The Go `c.rolloutsIndexer.ByIndex(indexName, indexedValue)`. -/
  byIndex : String → String → Except Err (List Obj)
  /-- The Go `c.argoprojclientset.ArgoprojV1alpha1().Rollouts(ns).Get(name, opts)`. -/
  rolloutsGet : String → String → Except Err Rollout
  /-- The Go `c.kubeclientset.CoreV1().Services(ns).Patch(name, pt, data)`. -/
  servicesPatch : String → String → PatchType → String → Except Err Service

/-! ## service/service.go -/

/-- The constant `serviceIndexName`. -/
def serviceIndexName : String := "byService"

/-- The constant `removeSelectorPatch`: a Go raw string literal, with its line
breaks and tabs, around the label key. -/
def removeSelectorPatch (v : V1alpha1) : String :=
  "[\n\t\t\x7b \"op\": \"remove\", \"path\": \"/spec/selector/" ++ v.DefaultRolloutUniqueLabelKey ++ "\" \x7d\n\t]"

/-- The constant `removeSelectorAndManagedByPatch`. -/
def removeSelectorAndManagedByPatch (v : V1alpha1) : String :=
  "[\n\t\t\x7b \"op\": \"remove\", \"path\": \"/spec/selector/" ++ v.DefaultRolloutUniqueLabelKey ++ "\" \x7d,\n\t\t\x7b \"op\": \"remove\", \"path\": \"/annotations/" ++ v.ManagedByRolloutsKey ++ "\" \x7d\n\t]"

/-- The Go `generateRemovePatch`. -/
def generateRemovePatch (v : V1alpha1) (svc : Service) : String :=
  match svc.Annotations.get v.ManagedByRolloutsKey with
  | some _ => removeSelectorAndManagedByPatch v
  | none => removeSelectorPatch v

/-- Modelled from the spec: `serviceutil.HasManagedByAnnotation` lives in
`utils/service`, outside the embedded files.  The spec has the Service carry
"a managed-by annotation naming a specific Rollout": the function returns the
value of that annotation and whether it is present. -/
def HasManagedByAnnotation (v : V1alpha1) (svc : Service) : String × Bool :=
  match svc.Annotations.get v.ManagedByRolloutsKey with
  | some rolloutName => (rolloutName, true)
  | none => ("", false)

/-- The loop of `getRolloutsByService` that keeps the objects whose dynamic
type is `*v1alpha1.Rollout`. -/
def rolloutsOf : List Obj → List Rollout
  | [] => []
  | Obj.rollout r :: objs => r :: rolloutsOf objs
  | Obj.other _ :: objs => rolloutsOf objs

/-- The Go `getRolloutsByService`, with the call it makes. -/
def getRolloutsByService (c : ServiceController) (ns serviceName : String) :
    Except Err (List Rollout) × List Call :=
  let indexedValue := ns ++ "/" ++ serviceName
  let calls := [Call.byIndex serviceIndexName indexedValue]
  match c.byIndex serviceIndexName indexedValue with
  | .error err => (.error err, calls)
  | .ok objs => (.ok (rolloutsOf objs), calls)

/-- The Go `svc.DeepCopy()`: a copy is the same value. -/
def Service.DeepCopy (svc : Service) : Service := svc

/-- The Go `syncService`: the returned `error` (`none` is nil) and the calls
made on the collaborators, in order. -/
def syncService (c : ServiceController) (key : String) : Option Err × List Call :=
  match c.SplitMetaNamespaceKey key with
  | .error err => (some err, [])
  | .ok (ns, name) =>
    let calls := [Call.servicesGet ns name]
    match c.servicesGet ns name with
    | .error err =>
      if IsNotFound err then (none, calls)
      else (some err, calls)
    | .ok svc =>
      let (rollouts?, indexCalls) := getRolloutsByService c svc.Namespace svc.Name
      let calls := calls ++ indexCalls
      match rollouts? with
      | .error _ => (none, calls)
      | .ok rollouts =>
        let calls := calls ++ rollouts.map Call.enqueueRollout
        let hasHashSelector := (svc.Selector.get c.v1alpha1.DefaultRolloutUniqueLabelKey).isSome
        if !hasHashSelector || rollouts.length > 0 then (none, calls)
        else
          let (rolloutName, hasManagedBy) := HasManagedByAnnotation c.v1alpha1 svc
          let patchStep (calls : List Call) : Option Err × List Call :=
            let updatedSvc := svc.DeepCopy
            let patch := generateRemovePatch c.v1alpha1 updatedSvc
            let calls := calls ++
              [Call.servicesPatch updatedSvc.Namespace updatedSvc.Name PatchType.JSONPatchType patch]
            match c.servicesPatch updatedSvc.Namespace updatedSvc.Name PatchType.JSONPatchType patch with
            | .error err => if IsNotFound err then (none, calls) else (some err, calls)
            | .ok _ => (none, calls)
          if hasManagedBy then
            let calls := calls ++ [Call.rolloutsGet svc.Namespace rolloutName]
            match c.rolloutsGet svc.Namespace rolloutName with
            | .ok _ => (none, calls)
            | .error _ => patchStep calls
          else patchStep calls


/-! ## Observations on the calls of a run -/

/-- Whether a call is a patch of a Service. -/
def Call.isPatch : Call → Bool
  | Call.servicesPatch _ _ _ _ => true
  | _ => false

/-- Whether a call is a direct lookup of a Rollout in the store. -/
def Call.isRolloutsGet : Call → Bool
  | Call.rolloutsGet _ _ => true
  | _ => false

/-- Whether a call puts a Rollout on the rollout work queue. -/
def Call.isEnqueue : Call → Bool
  | Call.enqueueRollout _ => true
  | _ => false

/-- Whether a call queries the rollout index. -/
def Call.isByIndex : Call → Bool
  | Call.byIndex _ _ => true
  | _ => false

/-- The patch calls among the calls of a run. -/
def patchCalls (calls : List Call) : List Call :=
  calls.filter Call.isPatch

/-- The JSON insignificant whitespace: space, tab, line feed, carriage return. -/
def isJSONSpace (ch : Char) : Bool :=
  ch.toNat == 32 || ch.toNat == 9 || ch.toNat == 10 || ch.toNat == 13

/-- A string without its JSON whitespace characters. -/
def dropJSONSpace (s : String) : String :=
  String.mk (s.data.filter (fun ch => !isJSONSpace ch))

/-! ## Concrete collaborators -/

/-- The Go `strings.Split(s, "/")` on the characters of `s`. -/
def splitSlash : List Char → List (List Char)
  | [] => [[]]
  | ch :: rest =>
    if ch.toNat == 47 then [] :: splitSlash rest
    else
      match splitSlash rest with
      | [] => [[ch]]
      | part :: parts => (ch :: part) :: parts

/-- The `cache.SplitMetaNamespaceKey` of k8s.io/client-go: `name` or
`namespace/name`, anything else is the error of an unexpected key format. -/
def SplitMetaNamespaceKey (key : String) : Except Err (String × String) :=
  match splitSlash key.data with
  | [name] => .ok ("", String.mk name)
  | [ns, name] => .ok (String.mk ns, String.mk name)
  | _ => .error (Err.unexpectedKeyFormat key)

/-- The label and annotation keys of argo-rollouts. -/
def exampleKeys : V1alpha1 :=
  V1alpha1.mk "rollouts-pod-template-hash" "argo-rollouts.argoproj.io/managed-by-rollouts"

/-- A Service `default/web` pinned to the revision `abc123`, without annotations. -/
def pinnedService : Service :=
  Service.mk "default" "web" (some [("app", "web"), ("rollouts-pod-template-hash", "abc123")]) none

/-- The Service `pinnedService` claimed by the Rollout `canary-rollout`. -/
def claimedService : Service :=
  Service.mk "default" "web" (some [("app", "web"), ("rollouts-pod-template-hash", "abc123")])
    (some [("argo-rollouts.argoproj.io/managed-by-rollouts", "canary-rollout")])

/-- The Service `default/web` without the hash selector. -/
def cleanService : Service :=
  Service.mk "default" "web" (some [("app", "web")]) none

/-- A not-found error. -/
def errNotFound : Err := Err.status "NotFound" "services \"web\" not found"

/-- An error that is not a not-found error. -/
def errTimeout : Err := Err.status "Timeout" "request timed out"

/-- A Rollout `default/canary-rollout`. -/
def canaryRollout : Rollout := Rollout.mk "default" "canary-rollout"

/-- A controller whose cache holds at most the Service `default/web` and whose
collaborators give the stated answers. -/
def exampleController (svc : Except Err Service) (index : Except Err (List Obj))
    (rollout : Except Err Rollout) (patched : Except Err Service) : ServiceController where
  v1alpha1 := exampleKeys
  SplitMetaNamespaceKey := SplitMetaNamespaceKey
  servicesGet := fun ns name => if ns == "default" && name == "web" then svc else .error errNotFound
  byIndex := fun _ _ => index
  rolloutsGet := fun _ _ => rollout
  servicesPatch := fun _ _ _ _ => patched

/-! ## hack/gen-crd-spec/main.go -/

/-- A value held in a Go `map[string]interface{}` tree of an
`unstructured.Unstructured`: nil, a bool, an int64, a float64, a string, a
`[]interface{}` or a `map[string]interface{}`.  `nilArr` and `nilObj` are the
nil slice and the nil map held in an interface. -/
inductive JSONValue where
  | null
  | bool (b : Bool)
  | int64 (n : Int)
  | float64 (x : Float)
  | str (s : String)
  | arr (xs : List JSONValue)
  | nilArr
  | obj (entries : List (String × JSONValue))
  | nilObj
  deriving Repr

/-- A Go `map[string]interface{}`: `none` is the nil map, `some l` a map with
the entries of `l` (the first entry of a key is the one that counts). -/
abbrev JSONMap := Option (List (String × JSONValue))

/-- A map as an `interface{}` value. -/
def JSONValue.ofMap : JSONMap → JSONValue
  | none => JSONValue.nilObj
  | some entries => JSONValue.obj entries

/-- The Go type assertion `v.(map[string]interface{})`: `none` when it fails. -/
def JSONValue.asMap : JSONValue → Option JSONMap
  | JSONValue.obj entries => some (some entries)
  | JSONValue.nilObj => some none
  | _ => none

/-- The Go expression `v, ok := m[k]`: indexing a nil map yields `ok = false`. -/
def JSONMap.get (m : JSONMap) (k : String) : Option JSONValue :=
  match m with
  | none => none
  | some entries => entries.lookup k

/-- The entries of a map after the Go assignment `m[k] = v`. -/
def setEntry : List (String × JSONValue) → String → JSONValue → List (String × JSONValue)
  | [], k, v => [(k, v)]
  | (k0, v0) :: rest, k, v =>
    if k0 == k then (k, v) :: rest else (k0, v0) :: setEntry rest k v

/-- The Go assignment `m[k] = v`: the map after it, or `none` for the panic of
an assignment to an entry of a nil map. -/
def JSONMap.set (m : JSONMap) (k : String) (v : JSONValue) : Option JSONMap :=
  match m with
  | none => none
  | some entries => some (some (setEntry entries k v))

mutual
/-- The body of the loop of `removeFieldHelper` after the `continue`: descend
when the value is a `map[string]interface{}` (on a nil map the inner loop has
nothing to do), leave any other value alone. -/
def removeFieldValue (v : JSONValue) (fieldName : String) : JSONValue :=
  match v with
  | JSONValue.obj vObj => JSONValue.obj (removeFieldEntries vObj fieldName)
  | v => v
termination_by structural v
/-- The loop of `removeFieldHelper` over the entries of a map that is not nil:
the entries after the loop. -/
def removeFieldEntries (obj : List (String × JSONValue)) (fieldName : String) :
    List (String × JSONValue) :=
  match obj with
  | [] => []
  | (k, v) :: rest =>
    if k == fieldName then removeFieldEntries rest fieldName
    else (k, removeFieldValue v fieldName) :: removeFieldEntries rest fieldName
termination_by structural obj
end

/-- The Go `removeFieldHelper`: the map after the call.  Ranging over a nil map
does nothing. -/
def removeFieldHelper (obj : JSONMap) (fieldName : String) : JSONMap :=
  match obj with
  | none => none
  | some entries => some (removeFieldEntries entries fieldName)

/-- The Go `unstructured.NestedMap(obj, fields...)` of k8s.io/apimachinery with
its error dropped: the map found at the path, and whether there is one.  A
missing key and a value that is not a map both give the nil map and false. -/
def NestedMap (obj : JSONMap) : List String → JSONMap × Bool
  | [] => (obj, true)
  | field :: fields =>
    match obj.get field with
    | some val =>
      match val.asMap with
      | some m => NestedMap m fields
      | none => (none, false)
    | none => (none, false)

/-- The Go `unstructured.SetNestedField(obj, value, fields...)` of
k8s.io/apimachinery with its error dropped: the object after the call, or
`none` when the call panics (no fields, or an assignment into a nil map).  Maps
missing on the way are created; a value on the way that is not a map is the
error, which leaves the object as it was. -/
def SetNestedField (obj : JSONMap) (value : JSONValue) : List String → Option JSONMap
  | [] => none
  | [field] => obj.set field value
  | field :: fields =>
    match obj.get field with
    | some val =>
      match val.asMap with
      | some valMap =>
        match SetNestedField valMap value fields with
        | some valMap2 => obj.set field (JSONValue.ofMap valMap2)
        | none => none
      | none => some obj
    | none =>
      match obj with
      | none => none
      | some _ =>
        match SetNestedField (some []) value fields with
        | some newVal => obj.set field (JSONValue.ofMap newVal)
        | none => none

/-- The Go `unstructured.SetNestedMap(obj, value, fields...)`: the deep copy of
a nil map is the nil map. -/
def SetNestedMap (obj : JSONMap) (value : JSONMap) (fields : List String) : Option JSONMap :=
  SetNestedField obj (JSONValue.ofMap value) fields

/-- The Go `removeDescriptions`: `un.Object` after the call, or `none` when the
call panics. -/
def removeDescriptions (un : JSONMap) : Option JSONMap :=
  let validation := (NestedMap un ["spec", "validation", "openAPIV3Schema"]).1
  let validation := removeFieldHelper validation "description"
  SetNestedMap un validation ["spec", "validation", "openAPIV3Schema"]

/-- The value reached from `v` by following the keys of `path` through nested maps. -/
def JSONValue.getPath : JSONValue → List String → Option JSONValue
  | v, [] => some v
  | JSONValue.obj m, k :: path =>
    match m.lookup k with
    | some v => JSONValue.getPath v path
    | none => none
  | _, _ :: _ => none

mutual
/-- Whether some map inside `v`, reached through nested maps only, has the key. -/
def JSONValue.keyInMaps (v : JSONValue) (key : String) : Bool :=
  match v with
  | JSONValue.obj m => keyInMaps m key
  | _ => false
termination_by structural v
/-- Whether the map with these entries or some map reached from it through
nested maps only has the key. -/
def keyInMaps (m : List (String × JSONValue)) (key : String) : Bool :=
  match m with
  | [] => false
  | (k, v) :: rest => k == key || v.keyInMaps key || keyInMaps rest key
termination_by structural m
end

mutual
/-- Whether some map inside `v`, reached through maps and list elements, has the key. -/
def JSONValue.keyAnywhere (v : JSONValue) (key : String) : Bool :=
  match v with
  | JSONValue.obj m => keyAnywhere m key
  | JSONValue.arr xs => keyAnywhereList xs key
  | _ => false
termination_by structural v
/-- Whether some element of the list holds a map with the key. -/
def keyAnywhereList (xs : List JSONValue) (key : String) : Bool :=
  match xs with
  | [] => false
  | x :: rest => x.keyAnywhere key || keyAnywhereList rest key
termination_by structural xs
/-- Whether the map with these entries or some map reached from it through
maps and list elements has the key. -/
def keyAnywhere (m : List (String × JSONValue)) (key : String) : Bool :=
  match m with
  | [] => false
  | (k, v) :: rest => k == key || v.keyAnywhere key || keyAnywhere rest key
termination_by structural m
end

/-- A CRD whose schema has descriptions at the top, inside a nested map and
inside a map that is an element of a list. -/
def exampleCRD : JSONMap :=
  some [("kind", JSONValue.str "CustomResourceDefinition"),
   ("spec", JSONValue.obj [("validation", JSONValue.obj [("openAPIV3Schema", JSONValue.obj
      [("description", JSONValue.str "top"),
       ("properties", JSONValue.obj
          [("spec", JSONValue.obj [("description", JSONValue.str "inner"), ("type", JSONValue.str "object")])]),
       ("allOf", JSONValue.arr [JSONValue.obj [("description", JSONValue.str "in list")]])])])])]

/-- The path of the schema inside a CRD. -/
def schemaPath : List String := ["spec", "validation", "openAPIV3Schema"]

/-! ## The paths of `syncService` -/

/-- A key that does not split is returned as the error of the split, without
any call. -/
theorem syncService_of_split_error (c : ServiceController) (key : String) (err : Err)
    (hkey : c.SplitMetaNamespaceKey key = .error err) :
    syncService c key = (some err, []) := by
  simp [syncService, hkey]

/-- When the lister fails, only the lister was called, and a not-found error
becomes success. -/
theorem syncService_of_get_error (c : ServiceController) (key ns name : String) (err : Err)
    (hkey : c.SplitMetaNamespaceKey key = .ok (ns, name))
    (hget : c.servicesGet ns name = .error err) :
    syncService c key =
      (if IsNotFound err then none else some err, [Call.servicesGet ns name]) := by
  cases hnf : IsNotFound err <;> simp [syncService, hkey, hget, hnf]

/-- When the index query fails, `syncService` returns nil after the query. -/
theorem syncService_of_index_error (c : ServiceController) (key ns name : String)
    (svc : Service) (err : Err)
    (hkey : c.SplitMetaNamespaceKey key = .ok (ns, name))
    (hget : c.servicesGet ns name = .ok svc)
    (hidx : c.byIndex serviceIndexName (svc.Namespace ++ "/" ++ svc.Name) = .error err) :
    syncService c key = (none, [Call.servicesGet ns name,
      Call.byIndex serviceIndexName (svc.Namespace ++ "/" ++ svc.Name)]) := by
  simp [syncService, getRolloutsByService, hkey, hget, hidx]

/-- The early return: no hash selector, or a Rollout in the index. -/
theorem syncService_of_early_return (c : ServiceController) (key ns name : String)
    (svc : Service) (objs : List Obj)
    (hkey : c.SplitMetaNamespaceKey key = .ok (ns, name))
    (hget : c.servicesGet ns name = .ok svc)
    (hidx : c.byIndex serviceIndexName (svc.Namespace ++ "/" ++ svc.Name) = .ok objs)
    (hearly : svc.Selector.get c.v1alpha1.DefaultRolloutUniqueLabelKey = none ∨
      rolloutsOf objs ≠ []) :
    syncService c key = (none, [Call.servicesGet ns name,
      Call.byIndex serviceIndexName (svc.Namespace ++ "/" ++ svc.Name)] ++
      (rolloutsOf objs).map Call.enqueueRollout) := by
  rcases hearly with hsel | hne
  · simp [syncService, getRolloutsByService, hkey, hget, hidx, hsel]
  · have hlen : 0 < (rolloutsOf objs).length := List.length_pos.mpr hne
    simp [syncService, getRolloutsByService, hkey, hget, hidx, hlen]

/-- The Rollout named by the managed-by annotation is in the store. -/
theorem syncService_of_owner_found (c : ServiceController) (key ns name : String)
    (svc : Service) (objs : List Obj) (hash rolloutName : String) (r : Rollout)
    (hkey : c.SplitMetaNamespaceKey key = .ok (ns, name))
    (hget : c.servicesGet ns name = .ok svc)
    (hidx : c.byIndex serviceIndexName (svc.Namespace ++ "/" ++ svc.Name) = .ok objs)
    (hsel : svc.Selector.get c.v1alpha1.DefaultRolloutUniqueLabelKey = some hash)
    (hnone : rolloutsOf objs = [])
    (hann : svc.Annotations.get c.v1alpha1.ManagedByRolloutsKey = some rolloutName)
    (hrollout : c.rolloutsGet svc.Namespace rolloutName = .ok r) :
    syncService c key = (none, [Call.servicesGet ns name,
      Call.byIndex serviceIndexName (svc.Namespace ++ "/" ++ svc.Name),
      Call.rolloutsGet svc.Namespace rolloutName]) := by
  simp [syncService, getRolloutsByService, HasManagedByAnnotation, hkey, hget, hidx, hsel,
    hnone, hann, hrollout]

/-- The patch of a Service without managed-by annotation. -/
theorem syncService_of_unannotated (c : ServiceController) (key ns name : String)
    (svc : Service) (objs : List Obj) (hash : String)
    (hkey : c.SplitMetaNamespaceKey key = .ok (ns, name))
    (hget : c.servicesGet ns name = .ok svc)
    (hidx : c.byIndex serviceIndexName (svc.Namespace ++ "/" ++ svc.Name) = .ok objs)
    (hsel : svc.Selector.get c.v1alpha1.DefaultRolloutUniqueLabelKey = some hash)
    (hnone : rolloutsOf objs = [])
    (hann : svc.Annotations.get c.v1alpha1.ManagedByRolloutsKey = none) :
    syncService c key =
      (match c.servicesPatch svc.Namespace svc.Name PatchType.JSONPatchType
          (removeSelectorPatch c.v1alpha1) with
        | .error err => if IsNotFound err then none else some err
        | .ok _ => none,
       [Call.servicesGet ns name,
        Call.byIndex serviceIndexName (svc.Namespace ++ "/" ++ svc.Name),
        Call.servicesPatch svc.Namespace svc.Name PatchType.JSONPatchType
          (removeSelectorPatch c.v1alpha1)]) := by
  cases hp : c.servicesPatch svc.Namespace svc.Name PatchType.JSONPatchType
      (removeSelectorPatch c.v1alpha1) with
  | ok s =>
    simp [syncService, getRolloutsByService, HasManagedByAnnotation, generateRemovePatch,
      Service.DeepCopy, hkey, hget, hidx, hsel, hnone, hann, hp]
  | error e =>
    cases hnf : IsNotFound e <;>
    simp [syncService, getRolloutsByService, HasManagedByAnnotation, generateRemovePatch,
      Service.DeepCopy, hkey, hget, hidx, hsel, hnone, hann, hp, hnf]

/-- The patch of a Service whose managed-by annotation names a Rollout that the
direct lookup did not return, whatever the error of the lookup. -/
theorem syncService_of_lookup_error (c : ServiceController) (key ns name : String)
    (svc : Service) (objs : List Obj) (hash rolloutName : String) (lookupErr : Err)
    (hkey : c.SplitMetaNamespaceKey key = .ok (ns, name))
    (hget : c.servicesGet ns name = .ok svc)
    (hidx : c.byIndex serviceIndexName (svc.Namespace ++ "/" ++ svc.Name) = .ok objs)
    (hsel : svc.Selector.get c.v1alpha1.DefaultRolloutUniqueLabelKey = some hash)
    (hnone : rolloutsOf objs = [])
    (hann : svc.Annotations.get c.v1alpha1.ManagedByRolloutsKey = some rolloutName)
    (hrollout : c.rolloutsGet svc.Namespace rolloutName = .error lookupErr) :
    syncService c key =
      (match c.servicesPatch svc.Namespace svc.Name PatchType.JSONPatchType
          (removeSelectorAndManagedByPatch c.v1alpha1) with
        | .error err => if IsNotFound err then none else some err
        | .ok _ => none,
       [Call.servicesGet ns name,
        Call.byIndex serviceIndexName (svc.Namespace ++ "/" ++ svc.Name),
        Call.rolloutsGet svc.Namespace rolloutName,
        Call.servicesPatch svc.Namespace svc.Name PatchType.JSONPatchType
          (removeSelectorAndManagedByPatch c.v1alpha1)]) := by
  cases hp : c.servicesPatch svc.Namespace svc.Name PatchType.JSONPatchType
      (removeSelectorAndManagedByPatch c.v1alpha1) with
  | ok s =>
    simp [syncService, getRolloutsByService, HasManagedByAnnotation, generateRemovePatch,
      Service.DeepCopy, hkey, hget, hidx, hsel, hnone, hann, hrollout, hp]
  | error e =>
    cases hnf : IsNotFound e <;>
    simp [syncService, getRolloutsByService, HasManagedByAnnotation, generateRemovePatch,
      Service.DeepCopy, hkey, hget, hidx, hsel, hnone, hann, hrollout, hp, hnf]

/-- The calls of a run are calls that are not patches, followed by at most one
patch call, and a run that makes the patch call returns nil when the call
succeeds or answers not-found and the error of the call otherwise. -/
theorem syncService_calls_shape (c : ServiceController) (key : String) :
    ∃ pre : List Call, (∀ x ∈ pre, x.isPatch = false) ∧
      ((syncService c key).2 = pre ∨
       ∃ ns name data,
        (syncService c key).2 = pre ++ [Call.servicesPatch ns name PatchType.JSONPatchType data] ∧
        (syncService c key).1 =
          match c.servicesPatch ns name PatchType.JSONPatchType data with
          | .error err => if IsNotFound err then none else some err
          | .ok _ => none) := by
  cases hk : c.SplitMetaNamespaceKey key with
  | error e =>
    exact ⟨[], by simp, Or.inl (by rw [syncService_of_split_error c key e hk])⟩
  | ok p =>
    obtain ⟨ns0, name0⟩ := p
    cases hg : c.servicesGet ns0 name0 with
    | error e =>
      refine ⟨[Call.servicesGet ns0 name0], by simp [Call.isPatch], Or.inl ?_⟩
      rw [syncService_of_get_error c key ns0 name0 e hk hg]
    | ok svc =>
      cases hi : c.byIndex serviceIndexName (svc.Namespace ++ "/" ++ svc.Name) with
      | error e =>
        refine ⟨_, ?_, Or.inl (by rw [syncService_of_index_error c key ns0 name0 svc e hk hg hi])⟩
        simp [Call.isPatch]
      | ok objs =>
        by_cases hearly : svc.Selector.get c.v1alpha1.DefaultRolloutUniqueLabelKey = none ∨
            rolloutsOf objs ≠ []
        · refine ⟨_, ?_, Or.inl (by
            rw [syncService_of_early_return c key ns0 name0 svc objs hk hg hi hearly])⟩
          intro x hx
          simp only [List.mem_append, List.mem_cons, List.mem_singleton, List.mem_map,
            List.not_mem_nil, or_false] at hx
          rcases hx with (rfl | rfl) | ⟨r, _, rfl⟩ <;> rfl
        · have hearly2 := not_or.mp hearly
          obtain ⟨hash, hsel⟩ := Option.ne_none_iff_exists'.mp hearly2.1
          have hnone : rolloutsOf objs = [] := not_not.mp hearly2.2
          cases hm : svc.Annotations.get c.v1alpha1.ManagedByRolloutsKey with
          | none =>
            refine ⟨[Call.servicesGet ns0 name0,
              Call.byIndex serviceIndexName (svc.Namespace ++ "/" ++ svc.Name)],
              by simp [Call.isPatch], Or.inr ⟨svc.Namespace, svc.Name, removeSelectorPatch c.v1alpha1, ?_⟩⟩
            rw [syncService_of_unannotated c key ns0 name0 svc objs hash hk hg hi hsel hnone hm]
            simp
          | some rn =>
            cases hr : c.rolloutsGet svc.Namespace rn with
            | ok r =>
              refine ⟨_, ?_, Or.inl (by
                rw [syncService_of_owner_found c key ns0 name0 svc objs hash rn r
                  hk hg hi hsel hnone hm hr])⟩
              simp [Call.isPatch]
            | error e =>
              refine ⟨[Call.servicesGet ns0 name0,
                Call.byIndex serviceIndexName (svc.Namespace ++ "/" ++ svc.Name),
                Call.rolloutsGet svc.Namespace rn],
                by simp [Call.isPatch],
                Or.inr ⟨svc.Namespace, svc.Name, removeSelectorAndManagedByPatch c.v1alpha1, ?_⟩⟩
              rw [syncService_of_lookup_error c key ns0 name0 svc objs hash rn e
                hk hg hi hsel hnone hm hr]
              simp

/-- A run makes at most one patch call. -/
theorem patchCalls_syncService_le_one (c : ServiceController) (key : String) :
    (patchCalls (syncService c key).2).length ≤ 1 := by
  obtain ⟨pre, hpre, h | ⟨ns, name, data, h, _⟩⟩ := syncService_calls_shape c key
  · have : patchCalls pre = [] := by
      simpa [patchCalls, List.filter_eq_nil_iff] using hpre
    rw [h, this]; simp
  · have : patchCalls pre = [] := by
      simpa [patchCalls, List.filter_eq_nil_iff] using hpre
    rw [h]
    simp only [patchCalls, List.filter_append] at this ⊢
    rw [this]; simp [Call.isPatch]

/-- The errors of the lister and of the patch call that are not not-found
errors are returned to the caller. -/
theorem syncService_propagates_lister_and_patch_errors (c : ServiceController) (key : String) :
    (∀ ns name err, c.SplitMetaNamespaceKey key = .ok (ns, name) →
      c.servicesGet ns name = .error err → IsNotFound err = false →
      (syncService c key).1 = some err ∧ patchCalls (syncService c key).2 = []) ∧
    (∀ ns name data err,
      Call.servicesPatch ns name PatchType.JSONPatchType data ∈ (syncService c key).2 →
      c.servicesPatch ns name PatchType.JSONPatchType data = .error err →
      IsNotFound err = false → (syncService c key).1 = some err) := by
  constructor
  · intro ns name err hk hg hnf
    rw [syncService_of_get_error c key ns name err hk hg]
    simp [hnf, patchCalls, Call.isPatch]
  · intro ns name data err hmem hp hnf
    obtain ⟨pre, hpre, h | ⟨ns1, name1, data1, h, hres⟩⟩ := syncService_calls_shape c key
    · rw [h] at hmem
      have := hpre _ hmem
      simp [Call.isPatch] at this
    · rw [h] at hmem
      rcases List.mem_append.mp hmem with hin | hin
      · have := hpre _ hin
        simp [Call.isPatch] at this
      · simp only [List.mem_singleton, Call.servicesPatch.injEq] at hin
        obtain ⟨rfl, rfl, -, rfl⟩ := hin
        rw [hres, hp]
        simp [hnf]

/-- A successful `getRolloutsByService` is a successful index query whose
objects of type Rollout are the returned list. -/
theorem getRolloutsByService_ok (c : ServiceController) (ns serviceName : String)
    (rollouts : List Rollout)
    (h : (getRolloutsByService c ns serviceName).1 = .ok rollouts) :
    ∃ objs, c.byIndex serviceIndexName (ns ++ "/" ++ serviceName) = .ok objs ∧
      rolloutsOf objs = rollouts := by
  cases hi : c.byIndex serviceIndexName (ns ++ "/" ++ serviceName) with
  | error e => simp [getRolloutsByService, hi] at h
  | ok objs =>
    refine ⟨objs, rfl, ?_⟩
    simpa [getRolloutsByService, hi] using h

/-- Without the hash selector on the Service found in the cache, a run returns
nil without a Rollout lookup and without a patch call. -/
theorem syncService_of_no_hash_selector (c : ServiceController) (key ns name : String)
    (svc : Service)
    (hkey : c.SplitMetaNamespaceKey key = .ok (ns, name))
    (hget : c.servicesGet ns name = .ok svc)
    (hclean : svc.Selector.get c.v1alpha1.DefaultRolloutUniqueLabelKey = none) :
    (syncService c key).1 = none ∧
    (syncService c key).2.filter Call.isRolloutsGet = [] ∧
    patchCalls (syncService c key).2 = [] := by
  cases hi : c.byIndex serviceIndexName (svc.Namespace ++ "/" ++ svc.Name) with
  | error e =>
    rw [syncService_of_index_error c key ns name svc e hkey hget hi]
    simp [patchCalls, Call.isPatch, Call.isRolloutsGet]
  | ok objs =>
    rw [syncService_of_early_return c key ns name svc objs hkey hget hi (Or.inl hclean)]
    have h2 : ((rolloutsOf objs).map Call.enqueueRollout).filter Call.isRolloutsGet = [] := by
      rw [List.filter_eq_nil_iff]; intro x hx
      obtain ⟨r, _, rfl⟩ := List.mem_map.mp hx; simp [Call.isRolloutsGet]
    have h3 : ((rolloutsOf objs).map Call.enqueueRollout).filter Call.isPatch = [] := by
      rw [List.filter_eq_nil_iff]; intro x hx
      obtain ⟨r, _, rfl⟩ := List.mem_map.mp hx; simp [Call.isPatch]
    refine ⟨rfl, ?_, ?_⟩
    · simp [List.filter_cons, Call.isRolloutsGet, h2]
    · simp [patchCalls, List.filter_cons, Call.isPatch, h3]

/-! ## The claims on `syncService` -/

/-- C1 (amended): a Service found in the cache that carries the hash selector
and has no Rollout in the index is patched exactly once, at its own namespace
and name: (a) without managed-by annotation no Rollout is looked up and the
body is `removeSelectorPatch`; (b) with a managed-by annotation whose Rollout
the direct lookup reports not found the body is
`removeSelectorAndManagedByPatch`.  Nothing is enqueued.  `syncService` returns
nil when the patch call succeeds or answers not-found, and the error of the
patch call otherwise. -/
theorem syncService_confirmed_orphan_patch (c : ServiceController) (key ns name : String)
    (svc : Service) (hash : String)
    (hkey : c.SplitMetaNamespaceKey key = .ok (ns, name))
    (hget : c.servicesGet ns name = .ok svc)
    (hsel : svc.Selector.get c.v1alpha1.DefaultRolloutUniqueLabelKey = some hash)
    (hquery : (getRolloutsByService c svc.Namespace svc.Name).1 = .ok []) :
    (svc.Annotations.get c.v1alpha1.ManagedByRolloutsKey = none →
      (syncService c key).2 =
        [Call.servicesGet ns name,
         Call.byIndex serviceIndexName (svc.Namespace ++ "/" ++ svc.Name),
         Call.servicesPatch svc.Namespace svc.Name PatchType.JSONPatchType
           (removeSelectorPatch c.v1alpha1)] ∧
      (∀ s, c.servicesPatch svc.Namespace svc.Name PatchType.JSONPatchType
          (removeSelectorPatch c.v1alpha1) = .ok s → (syncService c key).1 = none) ∧
      (∀ e, c.servicesPatch svc.Namespace svc.Name PatchType.JSONPatchType
          (removeSelectorPatch c.v1alpha1) = .error e →
        (syncService c key).1 = if IsNotFound e then none else some e)) ∧
    (∀ rolloutName lookupErr,
      svc.Annotations.get c.v1alpha1.ManagedByRolloutsKey = some rolloutName →
      c.rolloutsGet svc.Namespace rolloutName = .error lookupErr →
      IsNotFound lookupErr = true →
      (syncService c key).2 =
        [Call.servicesGet ns name,
         Call.byIndex serviceIndexName (svc.Namespace ++ "/" ++ svc.Name),
         Call.rolloutsGet svc.Namespace rolloutName,
         Call.servicesPatch svc.Namespace svc.Name PatchType.JSONPatchType
           (removeSelectorAndManagedByPatch c.v1alpha1)] ∧
      (∀ s, c.servicesPatch svc.Namespace svc.Name PatchType.JSONPatchType
          (removeSelectorAndManagedByPatch c.v1alpha1) = .ok s → (syncService c key).1 = none) ∧
      (∀ e, c.servicesPatch svc.Namespace svc.Name PatchType.JSONPatchType
          (removeSelectorAndManagedByPatch c.v1alpha1) = .error e →
        (syncService c key).1 = if IsNotFound e then none else some e)) := by
  obtain ⟨objs, hidx, hnone⟩ := getRolloutsByService_ok c _ _ _ hquery
  constructor
  · intro hann
    rw [syncService_of_unannotated c key ns name svc objs hash hkey hget hidx hsel hnone hann]
    refine ⟨rfl, ?_, ?_⟩
    · intro s hs; simp [hs]
    · intro e he; simp [he]
  · intro rolloutName lookupErr hann hrollout _
    rw [syncService_of_lookup_error c key ns name svc objs hash rolloutName lookupErr
      hkey hget hidx hsel hnone hann hrollout]
    refine ⟨rfl, ?_, ?_⟩
    · intro s hs; simp [hs]
    · intro e he; simp [he]

/-- C1 (witness): the Service `default/web` without annotation, and the same
Service claimed by a Rollout that the store does not have. -/
theorem syncService_confirmed_orphan_patch_witness :
    (syncService (exampleController (.ok pinnedService) (.ok []) (.error errNotFound)
        (.ok cleanService)) "default/web").2 =
      [Call.servicesGet "default" "web", Call.byIndex "byService" "default/web",
       Call.servicesPatch "default" "web" PatchType.JSONPatchType
         (removeSelectorPatch exampleKeys)] ∧
    (syncService (exampleController (.ok claimedService) (.ok []) (.error errNotFound)
        (.ok cleanService)) "default/web").2 =
      [Call.servicesGet "default" "web", Call.byIndex "byService" "default/web",
       Call.rolloutsGet "default" "canary-rollout",
       Call.servicesPatch "default" "web" PatchType.JSONPatchType
         (removeSelectorAndManagedByPatch exampleKeys)] :=
  ⟨((syncService_confirmed_orphan_patch
      (exampleController (.ok pinnedService) (.ok []) (.error errNotFound) (.ok cleanService))
      "default/web" "default" "web" pinnedService "abc123"
      (by decide) (by decide) (by decide) (by decide)).1 (by decide)).1,
   ((syncService_confirmed_orphan_patch
      (exampleController (.ok claimedService) (.ok []) (.error errNotFound) (.ok cleanService))
      "default/web" "default" "web" claimedService "abc123"
      (by decide) (by decide) (by decide) (by decide)).2
      "canary-rollout" errNotFound (by decide) (by decide) (by decide)).1⟩

/-- C1 (counterexample): the patch call on the orphaned Service `default/web`
answers with a not-found error, and `syncService` returns nil, not the error
outcome of the patch call. -/
theorem syncService_orphan_patch_outcome_counterexample :
    (exampleController (.ok pinnedService) (.ok []) (.error errNotFound)
        (.error errNotFound)).servicesGet "default" "web" = .ok pinnedService ∧
    pinnedService.Selector.get exampleKeys.DefaultRolloutUniqueLabelKey = some "abc123" ∧
    pinnedService.Annotations.get exampleKeys.ManagedByRolloutsKey = none ∧
    (getRolloutsByService (exampleController (.ok pinnedService) (.ok []) (.error errNotFound)
        (.error errNotFound)) "default" "web").1 = .ok [] ∧
    (syncService (exampleController (.ok pinnedService) (.ok []) (.error errNotFound)
        (.error errNotFound)) "default/web").2 =
      [Call.servicesGet "default" "web", Call.byIndex "byService" "default/web",
       Call.servicesPatch "default" "web" PatchType.JSONPatchType
         (removeSelectorPatch exampleKeys)] ∧
    (exampleController (.ok pinnedService) (.ok []) (.error errNotFound)
        (.error errNotFound)).servicesPatch "default" "web" PatchType.JSONPatchType
        (removeSelectorPatch exampleKeys) = .error errNotFound ∧
    (syncService (exampleController (.ok pinnedService) (.ok []) (.error errNotFound)
        (.error errNotFound)) "default/web").1 = none := by
  decide

/-- C2: a Service found in the cache with the hash selector, no Rollout in the
index and a managed-by annotation naming a Rollout that the direct lookup
returns is not patched: `syncService` returns nil, enqueues nothing, and looks
the Rollout up once, by the value of the annotation in the namespace of the
Service. -/
theorem syncService_scoped_owner_suppression (c : ServiceController) (key ns name : String)
    (svc : Service) (hash rolloutName : String) (r : Rollout)
    (hkey : c.SplitMetaNamespaceKey key = .ok (ns, name))
    (hget : c.servicesGet ns name = .ok svc)
    (hsel : svc.Selector.get c.v1alpha1.DefaultRolloutUniqueLabelKey = some hash)
    (hquery : (getRolloutsByService c svc.Namespace svc.Name).1 = .ok [])
    (hann : svc.Annotations.get c.v1alpha1.ManagedByRolloutsKey = some rolloutName)
    (hrollout : c.rolloutsGet svc.Namespace rolloutName = .ok r) :
    (syncService c key).1 = none ∧
    patchCalls (syncService c key).2 = [] ∧
    (syncService c key).2.filter Call.isEnqueue = [] ∧
    (syncService c key).2.filter Call.isRolloutsGet =
      [Call.rolloutsGet svc.Namespace rolloutName] ∧
    (syncService c key).2 =
      [Call.servicesGet ns name,
       Call.byIndex serviceIndexName (svc.Namespace ++ "/" ++ svc.Name),
       Call.rolloutsGet svc.Namespace rolloutName] := by
  obtain ⟨objs, hidx, hnone⟩ := getRolloutsByService_ok c _ _ _ hquery
  rw [syncService_of_owner_found c key ns name svc objs hash rolloutName r
    hkey hget hidx hsel hnone hann hrollout]
  simp [patchCalls, Call.isPatch, Call.isEnqueue, Call.isRolloutsGet]

/-- C2 (witness): the Service `default/web` claimed by `canary-rollout`, which
the store has. -/
theorem syncService_scoped_owner_suppression_witness :
    syncService (exampleController (.ok claimedService) (.ok []) (.ok canaryRollout)
        (.ok cleanService)) "default/web" =
      (none, [Call.servicesGet "default" "web", Call.byIndex "byService" "default/web",
        Call.rolloutsGet "default" "canary-rollout"]) :=
  Prod.ext
    (syncService_scoped_owner_suppression
      (exampleController (.ok claimedService) (.ok []) (.ok canaryRollout) (.ok cleanService))
      "default/web" "default" "web" claimedService "abc123" "canary-rollout" canaryRollout
      (by decide) (by decide) (by decide) (by decide) (by decide) (by decide)).1
    (syncService_scoped_owner_suppression
      (exampleController (.ok claimedService) (.ok []) (.ok canaryRollout) (.ok cleanService))
      "default/web" "default" "web" claimedService "abc123" "canary-rollout" canaryRollout
      (by decide) (by decide) (by decide) (by decide) (by decide) (by decide)).2.2.2.2

/-- C3: when the index query for a Service found in the cache returns at least
one Rollout, `syncService` enqueues each returned Rollout once, in the order of
the index, with or without the hash selector on the Service, looks no Rollout
up, patches nothing and returns nil. -/
theorem syncService_owned_enqueues (c : ServiceController) (key ns name : String)
    (svc : Service) (rollouts : List Rollout)
    (hkey : c.SplitMetaNamespaceKey key = .ok (ns, name))
    (hget : c.servicesGet ns name = .ok svc)
    (hquery : (getRolloutsByService c svc.Namespace svc.Name).1 = .ok rollouts)
    (hne : rollouts ≠ []) :
    (syncService c key).1 = none ∧
    (syncService c key).2.filter Call.isEnqueue = (rollouts).map Call.enqueueRollout ∧
    (syncService c key).2.filter Call.isRolloutsGet = [] ∧
    patchCalls (syncService c key).2 = [] ∧
    (syncService c key).2 =
      [Call.servicesGet ns name,
       Call.byIndex serviceIndexName (svc.Namespace ++ "/" ++ svc.Name)] ++
      (rollouts).map Call.enqueueRollout := by
  obtain ⟨objs, hobjs, hro⟩ := getRolloutsByService_ok c _ _ _ hquery
  rw [syncService_of_early_return c key ns name svc objs hkey hget hobjs
    (Or.inr (by rw [hro]; exact hne)), hro]
  have h1 : ((rollouts).map Call.enqueueRollout).filter Call.isEnqueue =
      (rollouts).map Call.enqueueRollout := by
    rw [List.filter_eq_self]; intro x hx
    obtain ⟨r, _, rfl⟩ := List.mem_map.mp hx; rfl
  have h2 : ((rollouts).map Call.enqueueRollout).filter Call.isRolloutsGet = [] := by
    rw [List.filter_eq_nil_iff]; intro x hx
    obtain ⟨r, _, rfl⟩ := List.mem_map.mp hx; simp [Call.isRolloutsGet]
  have h3 : ((rollouts).map Call.enqueueRollout).filter Call.isPatch = [] := by
    rw [List.filter_eq_nil_iff]; intro x hx
    obtain ⟨r, _, rfl⟩ := List.mem_map.mp hx; simp [Call.isPatch]
  refine ⟨rfl, ?_, ?_, ?_, rfl⟩
  · simp [List.filter_cons, Call.isEnqueue, h1]
  · simp [List.filter_cons, Call.isRolloutsGet, h2]
  · simp [patchCalls, List.filter_cons, Call.isPatch, h3]

/-- C3 (witness): two Rollouts reference the Service `default/web`, which has
no hash selector; an object of another type in the index is skipped. -/
theorem syncService_owned_enqueues_witness :
    syncService (exampleController (.ok cleanService)
        (.ok [Obj.rollout canaryRollout, Obj.other "Experiment",
          Obj.rollout (Rollout.mk "default" "blue-green")])
        (.error errNotFound) (.ok cleanService)) "default/web" =
      (none, [Call.servicesGet "default" "web", Call.byIndex "byService" "default/web",
        Call.enqueueRollout canaryRollout,
        Call.enqueueRollout (Rollout.mk "default" "blue-green")]) :=
  Prod.ext
    (syncService_owned_enqueues
      (exampleController (.ok cleanService)
        (.ok [Obj.rollout canaryRollout, Obj.other "Experiment",
          Obj.rollout (Rollout.mk "default" "blue-green")])
        (.error errNotFound) (.ok cleanService))
      "default/web" "default" "web" cleanService
      [canaryRollout, Rollout.mk "default" "blue-green"]
      (by decide) (by decide) (by decide) (by decide)).1
    (syncService_owned_enqueues
      (exampleController (.ok cleanService)
        (.ok [Obj.rollout canaryRollout, Obj.other "Experiment",
          Obj.rollout (Rollout.mk "default" "blue-green")])
        (.error errNotFound) (.ok cleanService))
      "default/web" "default" "web" cleanService
      [canaryRollout, Rollout.mk "default" "blue-green"]
      (by decide) (by decide) (by decide) (by decide)).2.2.2.2

/-- C4: a Service found in the cache whose selector does not have the hash
selector key is never patched: whatever the index, the annotations and the
store client answer, `syncService` looks no Rollout up, makes no patch call and
returns nil. -/
theorem syncService_clean_service (c : ServiceController) (key ns name : String)
    (svc : Service)
    (hkey : c.SplitMetaNamespaceKey key = .ok (ns, name))
    (hget : c.servicesGet ns name = .ok svc)
    (hclean : svc.Selector.get c.v1alpha1.DefaultRolloutUniqueLabelKey = none) :
    (syncService c key).1 = none ∧
    (syncService c key).2.filter Call.isRolloutsGet = [] ∧
    patchCalls (syncService c key).2 = [] :=
  syncService_of_no_hash_selector c key ns name svc hkey hget hclean

/-- C4 (witness): the Service `default/web` without hash selector, an empty
index and a store that fails every call; and a Service whose selector is nil. -/
theorem syncService_clean_service_witness :
    (syncService (exampleController (.ok cleanService) (.ok []) (.error errTimeout)
        (.error errTimeout)) "default/web").1 = none ∧
    patchCalls (syncService (exampleController (.ok (Service.mk "default" "web" none none))
        (.error errTimeout) (.error errTimeout) (.error errTimeout)) "default/web").2 = [] :=
  ⟨(syncService_clean_service
      (exampleController (.ok cleanService) (.ok []) (.error errTimeout) (.error errTimeout))
      "default/web" "default" "web" cleanService (by decide) (by decide) (by decide)).1,
   (syncService_clean_service
      (exampleController (.ok (Service.mk "default" "web" none none))
        (.error errTimeout) (.error errTimeout) (.error errTimeout))
      "default/web" "default" "web" (Service.mk "default" "web" none none)
      (by decide) (by decide) (by decide)).2.2⟩

/-- C5: for a key that splits into a namespace and a name whose Service the
lister reports not found, `syncService` returns nil and its only call is that
lookup: no index query, nothing enqueued, no Rollout lookup, no patch. -/
theorem syncService_deleted_service (c : ServiceController) (key ns name : String) (err : Err)
    (hkey : c.SplitMetaNamespaceKey key = .ok (ns, name))
    (hget : c.servicesGet ns name = .error err)
    (hnf : IsNotFound err = true) :
    syncService c key = (none, [Call.servicesGet ns name]) ∧
    (syncService c key).2.filter Call.isByIndex = [] ∧
    (syncService c key).2.filter Call.isEnqueue = [] ∧
    (syncService c key).2.filter Call.isRolloutsGet = [] ∧
    patchCalls (syncService c key).2 = [] := by
  rw [syncService_of_get_error c key ns name err hkey hget]
  simp [hnf, patchCalls, Call.isPatch, Call.isByIndex, Call.isEnqueue, Call.isRolloutsGet]

/-- C5 (witness): the key `default/web` when the cache has no such Service. -/
theorem syncService_deleted_service_witness :
    syncService (exampleController (.error errNotFound) (.ok [Obj.rollout canaryRollout])
        (.ok canaryRollout) (.ok cleanService)) "default/web" =
      (none, [Call.servicesGet "default" "web"]) :=
  (syncService_deleted_service
    (exampleController (.error errNotFound) (.ok [Obj.rollout canaryRollout])
      (.ok canaryRollout) (.ok cleanService))
    "default/web" "default" "web" errNotFound (by decide) (by decide) (by decide)).1

/-- C6 (the code at the failing inputs): an index query that fails with a
timeout makes `syncService` return nil; a direct Rollout lookup that fails with
a timeout makes `syncService` patch the Service and return the outcome of the
patch, here nil. -/
theorem syncService_swallows_index_and_lookup_errors :
    IsNotFound errTimeout = false ∧
    syncService (exampleController (.ok pinnedService) (.error errTimeout)
        (.ok canaryRollout) (.ok cleanService)) "default/web" =
      (none, [Call.servicesGet "default" "web", Call.byIndex "byService" "default/web"]) ∧
    syncService (exampleController (.ok claimedService) (.ok []) (.error errTimeout)
        (.ok cleanService)) "default/web" =
      (none, [Call.servicesGet "default" "web", Call.byIndex "byService" "default/web",
        Call.rolloutsGet "default" "canary-rollout",
        Call.servicesPatch "default" "web" PatchType.JSONPatchType
          (removeSelectorAndManagedByPatch exampleKeys)]) := by
  decide

/-- C7: when `syncService` makes the patch call, it returns nil if the call
succeeds, nil if the call answers with a not-found error, and the error of the
call if that is any other error. -/
theorem syncService_patch_outcome (c : ServiceController) (key ns name : String)
    (pt : PatchType) (data : String)
    (hreach : Call.servicesPatch ns name pt data ∈ (syncService c key).2) :
    (∀ s, c.servicesPatch ns name pt data = .ok s → (syncService c key).1 = none) ∧
    (∀ e, c.servicesPatch ns name pt data = .error e → IsNotFound e = true →
      (syncService c key).1 = none) ∧
    (∀ e, c.servicesPatch ns name pt data = .error e → IsNotFound e = false →
      (syncService c key).1 = some e) := by
  obtain ⟨pre, hpre, h | ⟨ns1, name1, data1, h, hres⟩⟩ := syncService_calls_shape c key
  · rw [h] at hreach
    have := hpre _ hreach
    simp [Call.isPatch] at this
  · rw [h] at hreach
    rcases List.mem_append.mp hreach with hin | hin
    · have := hpre _ hin
      simp [Call.isPatch] at this
    · simp only [List.mem_singleton, Call.servicesPatch.injEq] at hin
      obtain ⟨rfl, rfl, rfl, rfl⟩ := hin
      rw [hres]
      refine ⟨?_, ?_, ?_⟩
      · intro s hs; simp [hs]
      · intro e he hnf; simp [he, hnf]
      · intro e he hnf; simp [he, hnf]

/-- C7 (witness): the patch of the orphaned Service `default/web` fails with a
timeout, which `syncService` returns. -/
theorem syncService_patch_outcome_witness :
    (syncService (exampleController (.ok pinnedService) (.ok []) (.error errNotFound)
        (.error errTimeout)) "default/web").1 = some errTimeout :=
  (syncService_patch_outcome
    (exampleController (.ok pinnedService) (.ok []) (.error errNotFound) (.error errTimeout))
    "default/web" "default" "web" PatchType.JSONPatchType (removeSelectorPatch exampleKeys)
    (by decide)).2.2 errTimeout (by decide) (by decide)

/-- C8 (amended): with the collaborators in a fixed state, every run of
`syncService` makes at most one patch call and a second run on the same key
makes the calls of the first again, so the two runs make no patch call or two;
a second run for which the cache holds the Service without the hash selector
makes no patch call, and the two runs then make at most one. -/
theorem syncService_twice (c : ServiceController) (key : String) :
    (patchCalls (syncService c key).2).length ≤ 1 ∧
    (patchCalls ((syncService c key).2 ++ (syncService c key).2)).length =
      2 * (patchCalls (syncService c key).2).length ∧
    (∀ (c2 : ServiceController) (ns name : String) (svc : Service),
      c2.SplitMetaNamespaceKey key = .ok (ns, name) →
      c2.servicesGet ns name = .ok svc →
      svc.Selector.get c2.v1alpha1.DefaultRolloutUniqueLabelKey = none →
      patchCalls (syncService c2 key).2 = [] ∧
      (patchCalls ((syncService c key).2 ++ (syncService c2 key).2)).length ≤ 1) := by
  have hle := patchCalls_syncService_le_one c key
  refine ⟨hle, ?_, ?_⟩
  · simp only [patchCalls, List.filter_append, List.length_append]
    omega
  · intro c2 ns name svc hk hg hclean
    have h2 := (syncService_of_no_hash_selector c2 key ns name svc hk hg hclean).2.2
    refine ⟨h2, ?_⟩
    simp only [patchCalls, List.filter_append, List.length_append] at h2 hle ⊢
    rw [h2]
    simpa using hle

/-- C8 (witness): the first run patches the orphaned Service `default/web`; the
second run finds the Service without the hash selector in the cache. -/
theorem syncService_twice_witness :
    (patchCalls ((syncService (exampleController (.ok pinnedService) (.ok [])
        (.error errNotFound) (.ok cleanService)) "default/web").2 ++
      (syncService (exampleController (.ok cleanService) (.ok [])
        (.error errNotFound) (.ok cleanService)) "default/web").2)).length ≤ 1 :=
  ((syncService_twice
    (exampleController (.ok pinnedService) (.ok []) (.error errNotFound) (.ok cleanService))
    "default/web").2.2
    (exampleController (.ok cleanService) (.ok []) (.error errNotFound) (.ok cleanService))
    "default" "web" cleanService (by decide) (by decide) (by decide)).2

/-- C8 (counterexample): two runs in a row on the orphaned Service
`default/web`, the cache and every answer unchanged, make two patch calls, and
the second run makes one of them. -/
theorem syncService_twice_counterexample :
    (patchCalls ((syncService (exampleController (.ok pinnedService) (.ok [])
        (.error errNotFound) (.ok cleanService)) "default/web").2 ++
      (syncService (exampleController (.ok pinnedService) (.ok [])
        (.error errNotFound) (.ok cleanService)) "default/web").2)).length = 2 ∧
    patchCalls (syncService (exampleController (.ok pinnedService) (.ok [])
        (.error errNotFound) (.ok cleanService)) "default/web").2 =
      [Call.servicesPatch "default" "web" PatchType.JSONPatchType
        (removeSelectorPatch exampleKeys)] := by
  decide

/-! ## The claim on `generateRemovePatch` -/

/-- Dropping the JSON whitespace of a concatenation drops it in each part. -/
theorem dropJSONSpace_append (s t : String) :
    dropJSONSpace (s ++ t) = dropJSONSpace s ++ dropJSONSpace t := by
  apply String.ext
  simp [dropJSONSpace, String.data_append]

/-- A string without JSON whitespace is left as it is. -/
theorem dropJSONSpace_of_no_space (s : String) (h : ∀ ch ∈ s.data, isJSONSpace ch = false) :
    dropJSONSpace s = s := by
  apply String.ext
  simp only [dropJSONSpace]
  rw [List.filter_eq_self]
  intro ch hch
  simp [h ch hch]

/-- C9 (amended): `generateRemovePatch` depends on the annotations of the
Service only.  Without the managed-by key (nil annotations included) it returns
the raw literal `removeSelectorPatch`, with it (whatever the value) the raw
literal `removeSelectorAndManagedByPatch`: the JSON of the spec laid out over
several lines with tabs and spaces between the tokens, and equal to the compact
form of the spec once that whitespace is dropped, when the two keys have none.
The remove operation of the selector label comes first. -/
theorem generateRemovePatch_wire_format (v : V1alpha1) (svc : Service) :
    (∀ svc2 : Service, svc2.Annotations = svc.Annotations →
      generateRemovePatch v svc2 = generateRemovePatch v svc) ∧
    (svc.Annotations.get v.ManagedByRolloutsKey = none →
      generateRemovePatch v svc =
        "[\n\t\t\x7b \"op\": \"remove\", \"path\": \"/spec/selector/" ++
          v.DefaultRolloutUniqueLabelKey ++ "\" \x7d\n\t]") ∧
    (∀ value, svc.Annotations.get v.ManagedByRolloutsKey = some value →
      generateRemovePatch v svc =
        "[\n\t\t\x7b \"op\": \"remove\", \"path\": \"/spec/selector/" ++
          v.DefaultRolloutUniqueLabelKey ++
          "\" \x7d,\n\t\t\x7b \"op\": \"remove\", \"path\": \"/annotations/" ++
          v.ManagedByRolloutsKey ++ "\" \x7d\n\t]") ∧
    (∃ rest, generateRemovePatch v svc =
        "[\n\t\t\x7b \"op\": \"remove\", \"path\": \"/spec/selector/" ++
          v.DefaultRolloutUniqueLabelKey ++ "\" \x7d" ++ rest) ∧
    ((∀ ch ∈ v.DefaultRolloutUniqueLabelKey.data, isJSONSpace ch = false) →
      (∀ ch ∈ v.ManagedByRolloutsKey.data, isJSONSpace ch = false) →
      dropJSONSpace (generateRemovePatch v svc) =
        if (svc.Annotations.get v.ManagedByRolloutsKey).isSome then
          "[\x7b\"op\":\"remove\",\"path\":\"/spec/selector/" ++
            v.DefaultRolloutUniqueLabelKey ++
            "\"\x7d,\x7b\"op\":\"remove\",\"path\":\"/annotations/" ++
            v.ManagedByRolloutsKey ++ "\"\x7d]"
        else
          "[\x7b\"op\":\"remove\",\"path\":\"/spec/selector/" ++
            v.DefaultRolloutUniqueLabelKey ++ "\"\x7d]") := by
  refine ⟨?_, ?_, ?_, ?_, ?_⟩
  · intro svc2 h
    simp [generateRemovePatch, h]
  · intro h
    simp [generateRemovePatch, h, removeSelectorPatch]
  · intro value h
    simp [generateRemovePatch, h, removeSelectorAndManagedByPatch]
  · cases h : svc.Annotations.get v.ManagedByRolloutsKey with
    | none =>
      refine ⟨"\n\t]", ?_⟩
      simp only [generateRemovePatch, h, removeSelectorPatch]
      apply String.ext
      simp [String.data_append]
    | some value =>
      refine ⟨",\n\t\t\x7b \"op\": \"remove\", \"path\": \"/annotations/" ++
        v.ManagedByRolloutsKey ++ "\" \x7d\n\t]", ?_⟩
      simp only [generateRemovePatch, h, removeSelectorAndManagedByPatch]
      apply String.ext
      simp [String.data_append]
  · intro hK hM
    cases h : svc.Annotations.get v.ManagedByRolloutsKey with
    | none =>
      simp only [generateRemovePatch, h, removeSelectorPatch, dropJSONSpace_append,
        dropJSONSpace_of_no_space _ hK, Option.isSome_none, Bool.false_eq_true, if_false]
      rfl
    | some value =>
      simp only [generateRemovePatch, h, removeSelectorAndManagedByPatch, dropJSONSpace_append,
        dropJSONSpace_of_no_space _ hK, dropJSONSpace_of_no_space _ hM, Option.isSome_some,
        if_true]
      rfl

/-- C9 (witness): a Service whose managed-by annotation has the empty string as
its value, with the keys of argo-rollouts. -/
theorem generateRemovePatch_wire_format_witness :
    generateRemovePatch exampleKeys
        (Service.mk "default" "web" none
          (some [("argo-rollouts.argoproj.io/managed-by-rollouts", "")])) =
      "[\n\t\t\x7b \"op\": \"remove\", \"path\": \"/spec/selector/" ++
        "rollouts-pod-template-hash" ++
        "\" \x7d,\n\t\t\x7b \"op\": \"remove\", \"path\": \"/annotations/" ++
        "argo-rollouts.argoproj.io/managed-by-rollouts" ++ "\" \x7d\n\t]" ∧
    dropJSONSpace (generateRemovePatch exampleKeys pinnedService) =
      "[\x7b\"op\":\"remove\",\"path\":\"/spec/selector/rollouts-pod-template-hash\"\x7d]" :=
  ⟨(generateRemovePatch_wire_format exampleKeys
      (Service.mk "default" "web" none
        (some [("argo-rollouts.argoproj.io/managed-by-rollouts", "")]))).2.2.1 "" (by decide),
   (generateRemovePatch_wire_format exampleKeys pinnedService).2.2.2.2
      (by decide) (by decide)⟩

/-- C9 (counterexample): for a Service without annotations the patch is not,
character for character, the compact string of the spec. -/
theorem generateRemovePatch_compact_counterexample :
    pinnedService.Annotations.get exampleKeys.ManagedByRolloutsKey = none ∧
    generateRemovePatch exampleKeys pinnedService ≠
      "[\x7b\"op\":\"remove\",\"path\":\"/spec/selector/rollouts-pod-template-hash\"\x7d]" := by
  decide

/-! ## The claim on `removeDescriptions` -/

/-- The entries of the map after the loop of `removeFieldHelper`. -/
theorem lookup_removeFieldEntries (m : List (String × JSONValue)) (f k : String) :
    (removeFieldEntries m f).lookup k =
      if k = f then none else (m.lookup k).map (fun v => removeFieldValue v f) := by
  induction m with
  | nil => simp [removeFieldEntries]
  | cons e rest ih =>
    obtain ⟨k0, v0⟩ := e
    by_cases h0 : k0 = f
    · subst h0
      by_cases hk : k = k0
      · subst hk; simp [removeFieldEntries, ih]
      · have : (k == k0) = false := by simpa using hk
        simp [removeFieldEntries, ih, hk, List.lookup, this]
    · by_cases hk : k = k0
      · subst hk
        simp [removeFieldEntries, h0, List.lookup]
      · have : (k == k0) = false := by simpa using hk
        simp [removeFieldEntries, h0, List.lookup, this, ih]

mutual
/-- After the removal no map reached from the value through maps has the key. -/
theorem JSONValue.keyInMaps_removeFieldValue (v : JSONValue) (f : String) :
    (removeFieldValue v f).keyInMaps f = false := by
  cases v with
  | obj m => simp [removeFieldValue, JSONValue.keyInMaps, keyInMaps_removeFieldEntries m f]
  | _ => simp [removeFieldValue, JSONValue.keyInMaps]
/-- After the loop of `removeFieldHelper` no map reached through maps has the key. -/
theorem keyInMaps_removeFieldEntries (m : List (String × JSONValue)) (f : String) :
    keyInMaps (removeFieldEntries m f) f = false := by
  cases m with
  | nil => simp [removeFieldEntries, keyInMaps]
  | cons e rest =>
    obtain ⟨k, v⟩ := e
    by_cases h : k = f
    · simp [removeFieldEntries, h, keyInMaps_removeFieldEntries rest f]
    · simp [removeFieldEntries, h, keyInMaps, JSONValue.keyInMaps_removeFieldValue v f,
        keyInMaps_removeFieldEntries rest f]
end

/-- Along a path that avoids the removed key, the value after
`removeFieldHelper` is the value before with the key removed inside it. -/
theorem removeFieldValue_getPath (f : String) (path : List String) :
    ∀ v : JSONValue, f ∉ path →
      (removeFieldValue v f).getPath path = (v.getPath path).map (fun w => removeFieldValue w f) := by
  induction path with
  | nil => intro v _; simp [JSONValue.getPath]
  | cons k path ih =>
    intro v hf
    have hk : k ≠ f := fun h => hf (by simp [h])
    have hf2 : f ∉ path := fun h => hf (by simp [h])
    cases v with
    | obj m =>
      simp only [removeFieldValue, JSONValue.getPath, lookup_removeFieldEntries, if_neg hk]
      cases hl : m.lookup k with
      | none => simp
      | some w => simpa using ih w hf2
    | _ => simp [removeFieldValue, JSONValue.getPath]

/-- After `removeFieldHelper` no path through the removed key leads anywhere:
the key is removed with everything below it. -/
theorem removeFieldValue_getPath_removed (f : String) (path : List String) :
    ∀ v : JSONValue, f ∈ path → (removeFieldValue v f).getPath path = none := by
  induction path with
  | nil => intro v h; simp at h
  | cons k path ih =>
    intro v hf
    cases v with
    | obj m =>
      simp only [removeFieldValue, JSONValue.getPath, lookup_removeFieldEntries]
      by_cases hk : k = f
      · simp [hk]
      · have hf2 : f ∈ path := by
          rcases List.mem_cons.mp hf with h | h
          · exact absurd h.symm hk
          · exact h
        simp only [if_neg hk]
        cases hl : m.lookup k with
        | none => simp
        | some w => simpa using ih w hf2
    | _ => simp [removeFieldValue, JSONValue.getPath]

/-- Reading the key just assigned gives the assigned value. -/
theorem lookup_setEntry (m : List (String × JSONValue)) (k : String) (v : JSONValue) :
    List.lookup k (setEntry m k v) = some v := by
  induction m with
  | nil => simp [setEntry, List.lookup]
  | cons e rest ih =>
    obtain ⟨k0, v0⟩ := e
    by_cases h : k0 = k
    · simp [setEntry, h, List.lookup]
    · have h2 : (k == k0) = false := by simpa using fun h3 => h h3.symm
      simp [setEntry, h, List.lookup, h2, ih]

/-- A map held in an interface asserts back to itself. -/
theorem JSONValue.asMap_ofMap (m : JSONMap) : (JSONValue.ofMap m).asMap = some m := by
  cases m <;> rfl

/-- A path that `NestedMap` does not find yields the nil map. -/
theorem NestedMap_not_found (fields : List String) :
    ∀ obj : JSONMap, (NestedMap obj fields).2 = false → (NestedMap obj fields).1 = none := by
  induction fields with
  | nil => intro obj h; simp [NestedMap] at h
  | cons field fields ih =>
    intro obj h
    simp only [NestedMap] at h ⊢
    cases hl : obj.get field with
    | none => rfl
    | some val =>
      cases hm : val.asMap with
      | none => simp [hm]
      | some m =>
        simp only [hl, hm] at h ⊢
        exact ih m h

/-- Reading back the path that `SetNestedMap` has written gives the written
map, when that map is nil in case the path was not found before. -/
theorem NestedMap_SetNestedMap (value : JSONMap) (fields : List String) :
    ∀ obj out : JSONMap, ((NestedMap obj fields).2 = false → value = none) →
      SetNestedMap obj value fields = some out →
      (NestedMap out fields).1 = value := by
  induction fields with
  | nil => intro obj out _ h; simp [SetNestedMap, SetNestedField] at h
  | cons field fields ih =>
    intro obj out hv hset
    cases fields with
    | nil =>
      cases obj with
      | none => simp [SetNestedMap, SetNestedField, JSONMap.set] at hset
      | some entries =>
        simp only [SetNestedMap, SetNestedField, JSONMap.set, Option.some.injEq] at hset
        subst hset
        simp [NestedMap, JSONMap.get, lookup_setEntry, JSONValue.asMap_ofMap]
    | cons f2 rest =>
      cases obj with
      | none => simp [SetNestedMap, SetNestedField, JSONMap.get] at hset
      | some entries =>
        cases hl : List.lookup field entries with
        | none =>
          have hval : value = none := hv (by simp [NestedMap, JSONMap.get, hl])
          cases hrec : SetNestedField (some []) (JSONValue.ofMap value) (f2 :: rest) with
          | none => simp [SetNestedMap, SetNestedField, JSONMap.get, hl, hrec] at hset
          | some newVal =>
            simp only [SetNestedMap, SetNestedField, JSONMap.get, hl, hrec, JSONMap.set,
              Option.some.injEq] at hset
            subst hset
            simp only [NestedMap, JSONMap.get, lookup_setEntry, JSONValue.asMap_ofMap]
            exact ih (some []) newVal (fun _ => hval) hrec
        | some val =>
          cases hm : val.asMap with
          | none =>
            have hval : value = none := hv (by simp [NestedMap, JSONMap.get, hl, hm])
            simp only [SetNestedMap, SetNestedField, JSONMap.get, hl, hm,
              Option.some.injEq] at hset
            subst hset
            simp [NestedMap, JSONMap.get, hl, hm, hval]
          | some valMap =>
            cases hrec : SetNestedField valMap (JSONValue.ofMap value) (f2 :: rest) with
            | none => simp [SetNestedMap, SetNestedField, JSONMap.get, hl, hm, hrec] at hset
            | some valMap2 =>
              simp only [SetNestedMap, SetNestedField, JSONMap.get, hl, hm, hrec, JSONMap.set,
                Option.some.injEq] at hset
              subst hset
              simp only [NestedMap, JSONMap.get, lookup_setEntry, JSONValue.asMap_ofMap]
              refine ih valMap valMap2 (fun h => hv ?_) hrec
              simpa [NestedMap, JSONMap.get, hl, hm] using h

/-- When `removeDescriptions` returns, the schema after it is
`removeFieldHelper` of the schema before. -/
theorem schema_removeDescriptions (un out : JSONMap) (h : removeDescriptions un = some out) :
    (NestedMap out schemaPath).1 =
      removeFieldHelper (NestedMap un schemaPath).1 "description" := by
  unfold removeDescriptions at h
  refine NestedMap_SetNestedMap _ _ un out ?_ h
  intro hnf
  have := NestedMap_not_found _ un hnf
  rw [this]
  rfl

/-- On an object that is not nil and whose `spec` and `validation` are absent
or maps that are not nil, `removeDescriptions` returns.  In particular it
returns on every object decoded from JSON. -/
theorem removeDescriptions_returns (entries : List (String × JSONValue))
    (hspec : ∀ v, entries.lookup "spec" = some v → v ≠ JSONValue.nilObj)
    (hval : ∀ s v, entries.lookup "spec" = some (JSONValue.obj s) →
      s.lookup "validation" = some v → v ≠ JSONValue.nilObj) :
    ∃ out, removeDescriptions (some entries) = some out := by
  simp only [removeDescriptions, SetNestedMap, SetNestedField, JSONMap.get]
  cases hl : entries.lookup "spec" with
  | none => simp [JSONMap.set, JSONMap.get]
  | some v =>
    cases v with
    | nilObj => exact absurd rfl (hspec _ hl)
    | obj s =>
      simp only [JSONValue.asMap, JSONMap.get]
      cases hl2 : s.lookup "validation" with
      | none => simp [JSONMap.set]
      | some w =>
        cases w with
        | nilObj => exact absurd rfl (hval s _ hl hl2)
        | obj t => simp [JSONValue.asMap, JSONMap.set]
        | _ => simp [JSONValue.asMap, JSONMap.set]
    | _ => simp [JSONValue.asMap]

/-- What `removeDescriptions` does reach: when it returns, no map of the schema
that is reached through nested maps has the key "description"; at every path
of keys other than "description" a value that is not a map (a list with all
its elements included) is the value that was there and a map is the map that
was there after `removeFieldHelper`; every path through a key "description"
leads nowhere, the key being removed with all that is below it. -/
theorem removeDescriptions_nested_maps (un out : JSONMap)
    (h : removeDescriptions un = some out) :
    (∀ s, (NestedMap out schemaPath).1 = some s → keyInMaps s "description" = false) ∧
    (∀ path, "description" ∈ path →
      (JSONValue.ofMap (NestedMap out schemaPath).1).getPath path = none) ∧
    (∀ path v, "description" ∉ path →
      (JSONValue.ofMap (NestedMap un schemaPath).1).getPath path = some v →
      (∀ m, v ≠ JSONValue.obj m) →
      (JSONValue.ofMap (NestedMap out schemaPath).1).getPath path = some v) ∧
    (∀ path m, "description" ∉ path →
      (JSONValue.ofMap (NestedMap un schemaPath).1).getPath path = some (JSONValue.obj m) →
      (JSONValue.ofMap (NestedMap out schemaPath).1).getPath path =
        some (JSONValue.obj (removeFieldEntries m "description"))) := by
  rw [schema_removeDescriptions un out h]
  have hval : ∀ m : JSONMap, JSONValue.ofMap (removeFieldHelper m "description") =
      removeFieldValue (JSONValue.ofMap m) "description" := fun m => by
    cases m <;> simp [removeFieldHelper, JSONValue.ofMap, removeFieldValue]
  refine ⟨?_, ?_, ?_, ?_⟩
  · intro s hs
    cases hm : (NestedMap un schemaPath).1 with
    | none => simp [hm, removeFieldHelper] at hs
    | some m =>
      simp only [hm, removeFieldHelper, Option.some.injEq] at hs
      subst hs
      exact keyInMaps_removeFieldEntries _ _
  · intro path hp
    rw [hval]
    exact removeFieldValue_getPath_removed _ path _ hp
  · intro path v hp hv hnot
    rw [hval, removeFieldValue_getPath _ path _ hp, hv]
    cases v with
    | obj m => exact absurd rfl (hnot m)
    | _ => simp [removeFieldValue]
  · intro path m hp hv
    rw [hval, removeFieldValue_getPath _ path _ hp, hv]
    simp [removeFieldValue]

/-- C10 (the code at the failing input): `removeDescriptions` of `exampleCRD`
removes the description at the top of the schema and the one of the nested
property, and keeps the one in the map that is an element of the list under
`allOf`: a map inside the schema still has the key "description". -/
theorem removeDescriptions_keeps_description_in_list :
    removeDescriptions exampleCRD =
      some (some [("kind", JSONValue.str "CustomResourceDefinition"),
        ("spec", JSONValue.obj [("validation", JSONValue.obj [("openAPIV3Schema", JSONValue.obj
          [("properties", JSONValue.obj
              [("spec", JSONValue.obj [("type", JSONValue.str "object")])]),
           ("allOf", JSONValue.arr
              [JSONValue.obj [("description", JSONValue.str "in list")]])])])])]) ∧
    keyAnywhere
      [("properties", JSONValue.obj [("spec", JSONValue.obj [("type", JSONValue.str "object")])]),
       ("allOf", JSONValue.arr [JSONValue.obj [("description", JSONValue.str "in list")]])]
      "description" = true := by
  constructor <;> rfl

end ArgoRollouts
